import Mathlib

/-!
Verification development for the AcoustiTracePro acoustic engine
(Plugins/AcoustiTracePro/Source/AcousticEngine).

The C++ sources are shallowly embedded: machine floats become exact
rationals (or reals where square roots, trigonometry or logarithms are
involved), engine collaborators (ray casts, world queries, weak object
pointers) become oracle fields or function parameters, and the
imperative per-frame loops become structural recursion over the list of
registered entries.  Each definition keeps the name and the branch
structure of the function it embeds; the file ends with one theorem per
specification claim.
-/

namespace AcoustiTrace

/-- Embedding of FMath::Clamp(x, lo, hi) for rationals. -/
def clampQ (x lo hi : ℚ) : ℚ := max lo (min hi x)

/-- Embedding of FMath::Lerp(a, b, t) = a + t*(b-a) for rationals. -/
def lerpQ (a b t : ℚ) : ℚ := a + t * (b - a)

/-! Constants from the AcousticConstants namespace
    (AcousticEngineSubsystem.cpp, lines 19-35). -/

/-- Speed of sound in cm/s (AcousticConstants::SpeedOfSound). -/
def speedOfSound : ℚ := 34300

/-- Minimum distance for acoustic calculations (AcousticConstants::MinDistance). -/
def minDistance : ℚ := 1

/-- Default LPF when no occlusion (AcousticConstants::DefaultLPFCutoff). -/
def defaultLPFCutoff : ℚ := 20000

/-- Fully occluded LPF (AcousticConstants::OccludedLPFCutoff). -/
def occludedLPFCutoff : ℚ := 500

/-! Material model (AcousticTypes.h / AcousticTypes.cpp). -/

/-- Embedding of EAcousticMaterialType (AcousticTypes.h). -/
inductive EAcousticMaterialType where
  | default | concrete | wood | metal | glass | fabric
  | water | foliage | earth | ice | custom
deriving DecidableEq, Repr

/-- Embedding of FAcousticMaterial (AcousticTypes.h).  The display-name
field is dropped: no claim depends on it.  Field defaults mirror the
C++ member initializers. -/
structure FAcousticMaterial where
  materialType : EAcousticMaterialType := .default
  lowAbsorption : ℚ := 1/10
  midAbsorption : ℚ := 1/5
  highAbsorption : ℚ := 3/10
  transmission : ℚ := 0
  scattering : ℚ := 1/10
deriving DecidableEq, Repr

/-- Embedding of FAcousticMaterial::GetAverageAbsorption. -/
def FAcousticMaterial.getAverageAbsorption (m : FAcousticMaterial) : ℚ :=
  (m.lowAbsorption + m.midAbsorption + m.highAbsorption) / 3

/-- Embedding of FAcousticMaterial::CreateFromType (AcousticTypes.cpp,
lines 17-120), with every switch case. -/
def FAcousticMaterial.createFromType (t : EAcousticMaterialType) : FAcousticMaterial :=
  match t with
  | .concrete =>
      { materialType := t, lowAbsorption := 1/100, midAbsorption := 2/100,
        highAbsorption := 2/100, transmission := 0, scattering := 5/100 }
  | .wood =>
      { materialType := t, lowAbsorption := 15/100, midAbsorption := 11/100,
        highAbsorption := 10/100, transmission := 5/100, scattering := 10/100 }
  | .metal =>
      { materialType := t, lowAbsorption := 1/100, midAbsorption := 1/100,
        highAbsorption := 2/100, transmission := 0, scattering := 2/100 }
  | .glass =>
      { materialType := t, lowAbsorption := 18/100, midAbsorption := 6/100,
        highAbsorption := 4/100, transmission := 3/10, scattering := 2/100 }
  | .fabric =>
      { materialType := t, lowAbsorption := 3/100, midAbsorption := 12/100,
        highAbsorption := 35/100, transmission := 4/10, scattering := 3/10 }
  | .water =>
      { materialType := t, lowAbsorption := 1/100, midAbsorption := 1/100,
        highAbsorption := 2/100, transmission := 2/10, scattering := 5/10 }
  | .foliage =>
      { materialType := t, lowAbsorption := 3/100, midAbsorption := 6/100,
        highAbsorption := 11/100, transmission := 8/10, scattering := 7/10 }
  | .earth =>
      { materialType := t, lowAbsorption := 15/100, midAbsorption := 25/100,
        highAbsorption := 40/100, transmission := 0, scattering := 4/10 }
  | .ice =>
      { materialType := t, lowAbsorption := 1/100, midAbsorption := 1/100,
        highAbsorption := 2/100, transmission := 1/10, scattering := 5/100 }
  | _ =>
      { materialType := t, lowAbsorption := 10/100, midAbsorption := 20/100,
        highAbsorption := 30/100, transmission := 0, scattering := 10/100 }

/-- Embedding of FAcousticRayHit (AcousticTypes.h).  Hit location and
normal are engine-side vectors that no claim inspects; the distance is
in Unreal units (cm). -/
structure FAcousticRayHit where
  bIsValidHit : Bool := false
  distance : ℚ := 0
  material : FAcousticMaterial := {}
deriving DecidableEq, Repr

/-- Embedding of the fields of UAcousticSettings (AcousticSettings.h)
that the verified routines read.  Ray and source counts are natural
numbers: the config metadata clamps them to positive ranges
(ClampMin 16 for MaxRaysPerFrame, 16/24 for the reflection ray counts,
1 for the source caps).  Defaults mirror the C++ member initializers. -/
structure UAcousticSettings where
  maxRaysPerFrame : ℕ := 200
  advancedReflectionRays : ℕ := 24
  heroReflectionRays : ℕ := 32
  occlusionCacheFrames : ℕ := 5
  basicLODDistance : ℚ := 3000
  offLODDistance : ℚ := 8000
  maxAdvancedSources : ℕ := 8
  maxHeroSources : ℕ := 2
  realismFactor : ℚ := 7/10
deriving DecidableEq, Repr

/-! Occlusion derivation
    (AcousticEngineSubsystem.cpp, ComputeOcclusionFactor lines 881-896,
    ComputeLPFFromOcclusion lines 898-909, TraceOcclusion lines 403-446,
    and the parameter update inside ProcessOcclusion lines 704-722). -/

/-- Embedding of UAcousticEngineSubsystem::ComputeOcclusionFactor. -/
def computeOcclusionFactor (s : UAcousticSettings) (hit : FAcousticRayHit) : ℚ :=
  if hit.bIsValidHit = false then 0
  else
    let baseOcclusion := 1 - hit.material.transmission
    let occlusion := baseOcclusion * s.realismFactor
    clampQ occlusion 0 1

/-- Embedding of UAcousticEngineSubsystem::TraceOcclusion restricted to
its pure part: the engine line trace is an oracle, so the hit record is
a parameter; on a hit the function returns ComputeOcclusionFactor, on a
clear ray it returns 0. -/
def traceOcclusion (s : UAcousticSettings) (hit : FAcousticRayHit) : ℚ :=
  if hit.bIsValidHit then computeOcclusionFactor s hit else 0

/-- Embedding of the TransmissionGain expression assigned inside
UAcousticEngineSubsystem::ProcessOcclusion (lines 715-716). -/
def processedTransmissionGain (occlusion : ℚ) (hit : FAcousticRayHit) : ℚ :=
  if hit.bIsValidHit then (1 - occlusion) + occlusion * hit.material.transmission else 1

/-- Embedding of UAcousticEngineSubsystem::ComputeLPFFromOcclusion
(lines 898-909).  Note that the material factor multiplies only
MinCutoff and that the interpolation is FMath::Lerp, i.e. linear. -/
def computeLPFFromOcclusion (occlusionFactor : ℚ) (material : FAcousticMaterial) : ℚ :=
  let minCutoff := occludedLPFCutoff
  let maxCutoff := defaultLPFCutoff
  let materialFactor := 1 - material.highAbsorption * (1/2)
  lerpQ maxCutoff (minCutoff * materialFactor) occlusionFactor

/-- Follows the spec wording for claim C4 only (for comparison with the
code-derived computeLPFFromOcclusion): a logarithmic interpolation
between the default cutoff reduced by 1 - highAbsorption*0.5 and the
occluded floor reduced by the same factor, parameterized by occlusion. -/
noncomputable def specLPFCutoffLogInterp (occlusion highAbsorption : ℝ) : ℝ :=
  let reducedDefault : ℝ := 20000 * (1 - highAbsorption * (1/2))
  let reducedFloor : ℝ := 500 * (1 - highAbsorption * (1/2))
  Real.exp ((1 - occlusion) * Real.log reducedDefault + occlusion * Real.log reducedFloor)

/-- Concrete hit on a Concrete material, for the end-to-end occlusion
scenario. -/
def concreteHit : FAcousticRayHit :=
  { bIsValidHit := true, distance := 100, material := FAcousticMaterial.createFromType .concrete }

/-- Concrete clear-ray result. -/
def clearHit : FAcousticRayHit := { bIsValidHit := false }

/-! Theorems for claims C3 and C4. -/

/-- C3: for every occlusion trace, a hit yields
occlusion = clamp01((1 - transmission) * realismFactor) and
transmission gain (1 - occlusion) + occlusion * transmission, while a
clear ray yields occlusion 0 and gain 1; a Concrete hit at realism
factor 0.7 yields occlusion 0.7 and gain 0.3. -/
theorem occlusion_trace_formulas (s : UAcousticSettings) (hit : FAcousticRayHit) :
    (hit.bIsValidHit = true →
      traceOcclusion s hit = clampQ ((1 - hit.material.transmission) * s.realismFactor) 0 1 ∧
      processedTransmissionGain (traceOcclusion s hit) hit =
        (1 - traceOcclusion s hit) + traceOcclusion s hit * hit.material.transmission) ∧
    (hit.bIsValidHit = false →
      traceOcclusion s hit = 0 ∧ processedTransmissionGain (traceOcclusion s hit) hit = 1) ∧
    (traceOcclusion {} concreteHit = 7/10 ∧
      processedTransmissionGain (7/10) concreteHit = 3/10) := by
  refine ⟨fun h => ?_, fun h => ?_, by
    norm_num [traceOcclusion, computeOcclusionFactor, processedTransmissionGain, clampQ,
      concreteHit, FAcousticMaterial.createFromType, min_def, max_def]⟩
  · simp [traceOcclusion, computeOcclusionFactor, processedTransmissionGain, h]
  · simp [traceOcclusion, processedTransmissionGain, h]

/-- Witness for C3: instantiates the trace formulas on a clear ray and
on the Concrete hit of the end-to-end scenario. -/
theorem occlusion_trace_formulas_witness :
    (traceOcclusion {} clearHit = 0 ∧
      processedTransmissionGain (traceOcclusion {} clearHit) clearHit = 1) ∧
    traceOcclusion {} concreteHit = 7/10 :=
  ⟨(occlusion_trace_formulas {} clearHit).2.1 rfl,
   (occlusion_trace_formulas {} clearHit).2.2.1⟩

/-- C4 counterexample: the claim predicts that occlusion 0 yields the
default cutoff reduced by 1 - highAbsorption*0.5 (here 10000 Hz for
highAbsorption 1, via the logarithmic interpolation), but the code
returns the unreduced 20000 Hz: ComputeLPFFromOcclusion is a linear
FMath::Lerp and applies the material factor only to the occluded
floor. -/
theorem lpf_log_interp_counterexample :
    ((computeLPFFromOcclusion 0 { highAbsorption := 1 } : ℚ) : ℝ) = 20000 ∧
    specLPFCutoffLogInterp 0 1 = 10000 ∧ (20000 : ℝ) ≠ 10000 := by
  refine ⟨?_, ?_, by norm_num⟩
  · norm_num [computeLPFFromOcclusion, lerpQ, defaultLPFCutoff, occludedLPFCutoff]
  · have harg : ((1 : ℝ) - 0) * Real.log (20000 * (1 - 1 * (1/2))) +
        0 * Real.log (500 * (1 - 1 * (1/2))) = Real.log 10000 := by norm_num
    simp only [specLPFCutoffLogInterp]
    rw [harg]
    exact Real.exp_log (by norm_num)

/-- C4 amended: the occlusion-to-cutoff map of the code is the linear
interpolation from the unreduced default cutoff (20000 Hz, at occlusion
0) to the occluded floor (500 Hz) reduced by 1 - highAbsorption*0.5
(at occlusion 1); only the floor endpoint carries the material
reduction, and the interpolation is linear, not logarithmic. -/
theorem lpf_from_occlusion_linear (occ : ℚ) (m : FAcousticMaterial) :
    computeLPFFromOcclusion occ m =
      (1 - occ) * defaultLPFCutoff +
        occ * (occludedLPFCutoff * (1 - m.highAbsorption * (1/2))) ∧
    computeLPFFromOcclusion 0 m = defaultLPFCutoff ∧
    computeLPFFromOcclusion 1 m = occludedLPFCutoff * (1 - m.highAbsorption * (1/2)) := by
  refine ⟨?_, ?_, ?_⟩ <;> (unfold computeLPFFromOcclusion lerpQ; ring)

/-! Portal state machine (AcousticZoneVolume.cpp, AAcousticPortalVolume:
    SetOpen lines 362-376, SetOpenness lines 378-383, UpdateTransition
    lines 519-540; member defaults from AcousticZoneVolume.h). -/

/-- Embedding of KINDA_SMALL_NUMBER (1e-4), the tolerance that
FMath::IsNearlyEqual uses inside UpdateTransition. -/
def kindaSmallNumber : ℚ := 1/10000

/-- Embedding of the acoustic state of AAcousticPortalVolume.  Defaults
mirror the header: bIsOpen = true, Openness = 1, TargetOpenness = 1,
TransitionTime = 0.3 s. -/
structure PortalState where
  bIsOpen : Bool := true
  openness : ℚ := 1
  targetOpenness : ℚ := 1
  transitionTime : ℚ := 3/10
deriving DecidableEq, Repr

/-- Embedding of AAcousticPortalVolume::SetOpen.  SetActorTickEnabled
only schedules transition ticks and carries no acoustic state. -/
def PortalState.setOpen (st : PortalState) (bOpen : Bool) : PortalState :=
  let st1 := { st with bIsOpen := bOpen, targetOpenness := if bOpen then 1 else 0 }
  if st.transitionTime > 0 then st1 else { st1 with openness := st1.targetOpenness }

/-- Embedding of AAcousticPortalVolume::SetOpenness. -/
def PortalState.setOpenness (st : PortalState) (newOpenness : ℚ) : PortalState :=
  let o := clampQ newOpenness 0 1
  { st with openness := o, targetOpenness := o, bIsOpen := decide (o > 1/2) }

/-- Embedding of AAcousticPortalVolume::UpdateTransition. -/
def PortalState.updateTransition (st : PortalState) (deltaTime : ℚ) : PortalState :=
  if |st.openness - st.targetOpenness| ≤ kindaSmallNumber then
    { st with openness := st.targetOpenness }
  else
    let rate := if st.transitionTime > 0 then 1 / st.transitionTime else 100
    if st.openness < st.targetOpenness then
      { st with openness := min (st.openness + rate * deltaTime) st.targetOpenness }
    else
      { st with openness := max (st.openness - rate * deltaTime) st.targetOpenness }

/-- Operations that drive the portal state from outside. -/
inductive PortalOp where
  | setOpen (bOpen : Bool)
  | setOpenness (value : ℚ)
  | tick (deltaTime : ℚ)

/-- Applies one portal operation. -/
def PortalState.applyOp (st : PortalState) : PortalOp → PortalState
  | .setOpen b => st.setOpen b
  | .setOpenness v => st.setOpenness v
  | .tick dt => st.updateTransition dt

/-- Runs a sequence of portal operations from the default-constructed
portal state. -/
def runPortal (ops : List PortalOp) : PortalState :=
  ops.foldl PortalState.applyOp {}

/-- Helper for C8: every operation preserves the relation between the
open flag and the transition target. -/
theorem portal_flag_tracks_target_step (st : PortalState) (op : PortalOp)
    (h : st.bIsOpen = decide (st.targetOpenness > 1/2)) :
    (st.applyOp op).bIsOpen = decide ((st.applyOp op).targetOpenness > 1/2) := by
  cases op with
  | setOpen b =>
    simp only [PortalState.applyOp, PortalState.setOpen]
    cases b <;> split <;> simp <;> norm_num
  | setOpenness v =>
    rfl
  | tick dt =>
    simp only [PortalState.applyOp, PortalState.updateTransition]
    split
    · exact h
    · split <;> exact h

/-- C8 counterexample: from the default state (open, openness 1,
transition time 0.3 s), a single SetOpen(false) call sets bIsOpen to
false immediately while Openness stays 1 (> 0.5) until transition
ticks catch up, so the claimed equivalence fails in a reachable
state. -/
theorem portal_open_flag_counterexample :
    (runPortal [PortalOp.setOpen false]).bIsOpen = false ∧
    (runPortal [PortalOp.setOpen false]).openness = 1 ∧ ((1 : ℚ) > 1/2) := by
  have hpos : ((3 : ℚ)/10) > 0 := by norm_num
  have hrun : runPortal [PortalOp.setOpen false] =
      { bIsOpen := false, openness := 1, targetOpenness := 0, transitionTime := 3/10 } := by
    simp [runPortal, PortalState.applyOp, PortalState.setOpen, hpos]
  rw [hrun]
  exact ⟨rfl, rfl, by norm_num⟩

/-- C8 amended: in every reachable portal state the open flag equals
the derived view of the transition target (bIsOpen = TargetOpenness >
0.5); consequently, whenever the portal is not mid-transition
(Openness = TargetOpenness), bIsOpen is true exactly when Openness >
0.5.  Immediately after SetOpen with a positive transition time the
equivalence with Openness itself can fail. -/
theorem portal_open_flag_amended (ops : List PortalOp) :
    (runPortal ops).bIsOpen = decide ((runPortal ops).targetOpenness > 1/2) ∧
    ((runPortal ops).openness = (runPortal ops).targetOpenness →
      (runPortal ops).bIsOpen = decide ((runPortal ops).openness > 1/2)) := by
  have main : ∀ st : PortalState, st.bIsOpen = decide (st.targetOpenness > 1/2) →
      (ops.foldl PortalState.applyOp st).bIsOpen =
        decide ((ops.foldl PortalState.applyOp st).targetOpenness > 1/2) := by
    induction ops with
    | nil => intro st h; exact h
    | cons op rest ih =>
      intro st h
      exact ih (st.applyOp op) (portal_flag_tracks_target_step st op h)
  have h0 : (runPortal ops).bIsOpen = decide ((runPortal ops).targetOpenness > 1/2) :=
    main {} ((decide_eq_true (by norm_num : ((1 : ℚ) > 1/2))).symm)
  refine ⟨h0, fun he => ?_⟩
  rw [h0, he]

/-- Witness for C8 amended: after SetOpenness(0.75) the portal is
quiescent, and the open flag matches openness > 0.5. -/
theorem portal_open_flag_amended_witness :
    (runPortal [PortalOp.setOpenness (3/4)]).bIsOpen =
      decide ((runPortal [PortalOp.setOpenness (3/4)]).openness > 1/2) :=
  (portal_open_flag_amended [PortalOp.setOpenness (3/4)]).2 rfl

/-! Source registration (AcousticEngineSubsystem.cpp: RegisterSource
    lines 144-175, UnregisterSource lines 177-183; NextSourceId starts
    at 1, AcousticEngineSubsystem.h line 287). -/

/-- Embedding of the registration state of UAcousticEngineSubsystem:
the NextSourceId counter and the RegisteredSources map as an ordered
association list of (SourceId, source-component handle) pairs.  The
source component pointer becomes a numeric handle. -/
structure RegistryState where
  nextSourceId : ℤ := 1
  registered : List (ℤ × ℕ) := []
deriving DecidableEq, Repr

/-- Embedding of UAcousticEngineSubsystem::RegisterSource.  A null
component pointer becomes none; the scan over the TMap for an entry
whose component equals the argument becomes List.find?. -/
def registerSource (source : Option ℕ) (st : RegistryState) : ℤ × RegistryState :=
  match source with
  | none => (-1, st)
  | some h =>
    match st.registered.find? (fun p => p.2 == h) with
    | some p => (p.1, st)
    | none =>
      (st.nextSourceId,
        { nextSourceId := st.nextSourceId + 1,
          registered := st.registered ++ [(st.nextSourceId, h)] })

/-- Embedding of UAcousticEngineSubsystem::UnregisterSource
(TMap::Remove by source id). -/
def unregisterSource (sourceId : ℤ) (st : RegistryState) : RegistryState :=
  { st with registered := st.registered.filter (fun p => p.1 != sourceId) }

/-- Registration-facing operations of the subsystem. -/
inductive RegistryOp where
  | register (source : Option ℕ)
  | unregister (sourceId : ℤ)

/-- Runs a sequence of registry operations, collecting the IDs handed
out by registrations that created a new entry (detected by the
NextSourceId counter advancing). -/
def runRegistry : RegistryState → List RegistryOp → RegistryState × List ℤ
  | st, [] => (st, [])
  | st, RegistryOp.register s :: rest =>
    let r := registerSource s st
    let tail := runRegistry r.2 rest
    if r.2.nextSourceId = st.nextSourceId then tail else (tail.1, r.1 :: tail.2)
  | st, RegistryOp.unregister i :: rest => runRegistry (unregisterSource i st) rest

/-- List of k consecutive integer IDs starting at n. -/
def idsFrom (n : ℤ) (k : ℕ) : List ℤ := (List.range k).map (fun j : ℕ => n + (j : ℤ))

/-- Well-formedness of the registry: the counter is at least 1, every
registered ID lies in [1, NextSourceId), and both IDs and handles are
pairwise distinct. -/
def RegistryWF (st : RegistryState) : Prop :=
  1 ≤ st.nextSourceId ∧
  (∀ p ∈ st.registered, 1 ≤ p.1 ∧ p.1 < st.nextSourceId) ∧
  st.registered.Pairwise (fun p q => p.1 ≠ q.1 ∧ p.2 ≠ q.2)

/-- Helper: consecutive-ID lists unfold one element at a time. -/
theorem idsFrom_succ (n : ℤ) (k : ℕ) : idsFrom n (k+1) = n :: idsFrom (n+1) k := by
  unfold idsFrom
  rw [List.range_succ_eq_map, List.map_cons, List.map_map]
  refine congrArg₂ _ (by simp) (List.map_congr_left ?_)
  intro j hj
  simp only [Function.comp_apply, Nat.succ_eq_add_one]
  push_cast
  ring

/-- Helper: under distinct handles, the find? scan of RegisterSource
locates exactly the registered entry with the requested handle. -/
theorem find_registered (l : List (ℤ × ℕ)) (h : ℕ) (p : ℤ × ℕ)
    (hp : p ∈ l) (hh : p.2 = h)
    (hdist : l.Pairwise (fun a b => a.1 ≠ b.1 ∧ a.2 ≠ b.2)) :
    l.find? (fun q => q.2 == h) = some p := by
  induction l with
  | nil => cases hp
  | cons q tl ih =>
    rcases List.mem_cons.mp hp with rfl | hmem
    · exact List.find?_cons_of_pos tl (by simpa using hh)
    · have hqp := (List.pairwise_cons.mp hdist).1 p hmem
      have hq : ¬ (q.2 == h) = true := by
        simp only [beq_iff_eq]
        rw [← hh]
        exact hqp.2
      rw [List.find?_cons_of_neg tl hq]
      exact ih hmem (List.pairwise_cons.mp hdist).2

/-- Helper: the IDs collected along any run are the consecutive block
starting at the initial NextSourceId, and the counter advances by
exactly the number of fresh registrations. -/
theorem runRegistry_ids (ops : List RegistryOp) : ∀ st : RegistryState,
    (runRegistry st ops).2 = idsFrom st.nextSourceId (runRegistry st ops).2.length ∧
    (runRegistry st ops).1.nextSourceId =
      st.nextSourceId + (runRegistry st ops).2.length := by
  induction ops with
  | nil => intro st; simp [runRegistry, idsFrom]
  | cons op rest ih =>
    intro st
    cases op with
    | unregister i =>
      have := ih (unregisterSource i st)
      simpa [runRegistry, unregisterSource] using this
    | register s =>
      cases s with
      | none =>
        have := ih st
        simpa [runRegistry, registerSource] using this
      | some h =>
        cases hf : st.registered.find? (fun p => p.2 == h) with
        | some p =>
          have := ih st
          simpa [runRegistry, registerSource, hf] using this
        | none =>
          have hne : st.nextSourceId + 1 ≠ st.nextSourceId := by omega
          have htail := ih { nextSourceId := st.nextSourceId + 1,
                             registered := st.registered ++ [(st.nextSourceId, h)] }
          simp only [runRegistry, registerSource, hf, hne, if_false] at htail ⊢
          refine ⟨?_, ?_⟩
          · rw [List.length_cons, idsFrom_succ]
            exact congrArg _ htail.1
          · have h2 := htail.2
            rw [List.length_cons]
            push_cast
            push_cast at h2
            omega

/-- Helper: RegisterSource preserves registry well-formedness. -/
theorem registerSource_wf (s : Option ℕ) (st : RegistryState) (hwf : RegistryWF st) :
    RegistryWF (registerSource s st).2 := by
  obtain ⟨h1, h2, h3⟩ := hwf
  cases s with
  | none => exact ⟨h1, h2, h3⟩
  | some h =>
    cases hf : st.registered.find? (fun p => p.2 == h) with
    | some p => simpa [registerSource, hf] using ⟨h1, h2, h3⟩
    | none =>
      have hnoth : ∀ p ∈ st.registered, p.2 ≠ h := by
        intro p hp
        have := List.find?_eq_none.mp hf p hp
        simpa using this
      simp only [registerSource, hf]
      refine ⟨by show (1 : ℤ) ≤ st.nextSourceId + 1; omega, ?_, ?_⟩
      · intro p hp
        rcases List.mem_append.mp hp with hmem | hmem
        · refine ⟨(h2 p hmem).1, ?_⟩
          show p.1 < st.nextSourceId + 1
          have := (h2 p hmem).2
          omega
        · rcases List.mem_singleton.mp hmem with rfl
          refine ⟨h1, ?_⟩
          show st.nextSourceId < st.nextSourceId + 1
          omega
      · rw [List.pairwise_append]
        refine ⟨h3, List.pairwise_singleton _ _, ?_⟩
        intro p hp q hq
        rcases List.mem_singleton.mp hq with rfl
        exact ⟨by have := h2 p hp; omega, hnoth p hp⟩

/-- Helper: UnregisterSource preserves registry well-formedness. -/
theorem unregisterSource_wf (i : ℤ) (st : RegistryState) (hwf : RegistryWF st) :
    RegistryWF (unregisterSource i st) := by
  obtain ⟨h1, h2, h3⟩ := hwf
  refine ⟨h1, ?_, ?_⟩
  · intro p hp
    exact h2 p (List.mem_of_mem_filter hp)
  · exact h3.sublist (List.filter_sublist _)

/-- Helper: the registry stays well-formed along any run. -/
theorem runRegistry_wf (ops : List RegistryOp) : ∀ st : RegistryState,
    RegistryWF st → RegistryWF (runRegistry st ops).1 := by
  induction ops with
  | nil => intro st hwf; exact hwf
  | cons op rest ih =>
    intro st hwf
    cases op with
    | unregister i =>
      exact ih _ (unregisterSource_wf i st hwf)
    | register s =>
      have hwf2 := registerSource_wf s st hwf
      simp only [runRegistry]
      split
      · exact ih _ hwf2
      · exact ih _ hwf2

/-- C9: RegisterSource returns -1 on a null handle without touching the
registry; registering an already-registered handle returns the existing
ID and leaves the registry unchanged; and along any operation sequence
from the initial state the fresh IDs handed out are exactly the
consecutive integers starting at 1 (hence unique, strictly increasing,
and never reused), with the registry staying well-formed. -/
theorem register_source_spec :
    (∀ st : RegistryState, registerSource none st = (-1, st)) ∧
    (∀ (st : RegistryState) (h : ℕ) (p : ℤ × ℕ), RegistryWF st → p ∈ st.registered →
      p.2 = h → registerSource (some h) st = (p.1, st)) ∧
    (∀ ops : List RegistryOp,
      (runRegistry {} ops).2 = idsFrom 1 (runRegistry {} ops).2.length ∧
      RegistryWF (runRegistry {} ops).1) := by
  refine ⟨fun st => rfl, ?_, ?_⟩
  · intro st h p hwf hmem hh
    simp only [registerSource]
    rw [find_registered st.registered h p hmem hh hwf.2.2]
  · intro ops
    have hinit : RegistryWF {} := by
      refine ⟨le_refl 1, ?_, List.Pairwise.nil⟩
      intro p hp
      cases hp
    exact ⟨(runRegistry_ids ops {}).1, runRegistry_wf ops {} hinit⟩

/-- Witness for C9: a registry holding handle 5 under ID 1 returns ID 1
again when handle 5 is re-registered, unchanged. -/
theorem register_source_spec_witness :
    registerSource (some 5) { nextSourceId := 2, registered := [(1, 5)] } =
      (1, { nextSourceId := 2, registered := [(1, 5)] }) :=
  register_source_spec.2.1 { nextSourceId := 2, registered := [(1, 5)] } 5 (1, 5)
    ⟨by norm_num, by simp, by simp⟩ (by simp) rfl

/-! Source entries and the LOD scheduler
    (AcousticTypes.h structures; AcousticEngineSubsystem.cpp,
    UpdateSourcePriorities lines 570-662). -/

/-- Embedding of EAcousticLOD (AcousticTypes.h): Off < Basic <
Advanced < Hero, in declaration order. -/
inductive EAcousticLOD where
  | off | basic | advanced | hero
deriving DecidableEq, Repr

/-- Numeric value of the uint8-backed LOD enum, for the ordered
comparison DesiredLOD > EAcousticLOD::Basic. -/
def EAcousticLOD.toNat : EAcousticLOD → ℕ
  | .off => 0
  | .basic => 1
  | .advanced => 2
  | .hero => 3

/-- Embedding of FEarlyReflectionParams::MaxTaps. -/
def maxTaps : ℕ := 8

/-- Embedding of FReflectionTap (AcousticTypes.h).  Defaults mirror the
C++ member initializers, which are also the post-Reset values. -/
structure FReflectionTap where
  delayMs : ℚ := 0
  gain : ℚ := 0
  lpfCutoff : ℚ := 20000
  azimuth : ℚ := 0
  elevation : ℚ := 0
  bIsValid : Bool := false
deriving DecidableEq, Repr

/-- Embedding of FEarlyReflectionParams (AcousticTypes.h); the
constructor sizes the tap array to MaxTaps. -/
structure FEarlyReflectionParams where
  taps : List FReflectionTap := List.replicate maxTaps {}
  validTapCount : ℕ := 0
  averageDelayMs : ℚ := 0
  reflectionDensity : ℚ := 0
deriving DecidableEq, Repr

/-- Embedding of FEarlyReflectionParams::Reset: every field returns to
its default and every tap to a default-constructed FReflectionTap. -/
def FEarlyReflectionParams.reset (_p : FEarlyReflectionParams) : FEarlyReflectionParams := {}

/-- Embedding of the fields of FAcousticSourceParams that the verified
routines touch (AcousticTypes.h).  Defaults mirror the C++ member
initializers. -/
structure FAcousticSourceParams where
  occlusion : ℚ := 0
  lowPassCutoff : ℚ := 20000
  transmissionGain : ℚ := 1
  reverbSend : ℚ := 3/10
  earlyReflections : FEarlyReflectionParams := {}
  distance : ℚ := 0
  bIsValid : Bool := false
deriving DecidableEq, Repr

/-- Embedding of FAcousticSourceEntry (AcousticEngineSubsystem.h)
together with the per-entry data the update passes read from the
engine: sourceValid models the weak component pointer still resolving,
acousticLOD is the component's configured LOD, priorityScore the score
from the scoring loop, and occlHit / reflHits are the oracle results
the engine ray casts would return for this entry this tick. -/
structure FAcousticSourceEntry where
  sourceValid : Bool := true
  acousticLOD : EAcousticLOD := .basic
  priorityScore : ℚ := 0
  effectiveLOD : EAcousticLOD := .basic
  bIsAudible : Bool := true
  lastOcclusionUpdateTime : ℚ := 0
  lastReflectionUpdateTime : ℚ := 0
  currentParams : FAcousticSourceParams := {}
  previousParams : FAcousticSourceParams := {}
  occlHit : FAcousticRayHit := {}
  reflHits : List FAcousticRayHit := []
deriving DecidableEq, Repr

/-- Embedding of the distance-downgrade step of UpdateSourcePriorities
(lines 624-633): beyond OffLODDistance force Off, beyond
BasicLODDistance cap the desired LOD at Basic. -/
def distanceDowngrade (s : UAcousticSettings) (e : FAcousticSourceEntry) : EAcousticLOD :=
  if e.currentParams.distance > s.offLODDistance then EAcousticLOD.off
  else if e.currentParams.distance > s.basicLODDistance ∧
      EAcousticLOD.basic.toNat < e.acousticLOD.toNat then EAcousticLOD.basic
  else e.acousticLOD

/-- Embedding of the Hero concurrency branch of UpdateSourcePriorities
(lines 635-646): Hero is handed out only below the cap, incrementing
the running count, otherwise downgraded to Advanced. -/
def heroBranch (s : UAcousticSettings) (heroCount : ℕ) (d : EAcousticLOD) :
    EAcousticLOD × ℕ :=
  if d = EAcousticLOD.hero then
    if s.maxHeroSources ≤ heroCount then (EAcousticLOD.advanced, heroCount)
    else (EAcousticLOD.hero, heroCount + 1)
  else (d, heroCount)

/-- Embedding of the Advanced concurrency branch of
UpdateSourcePriorities (lines 648-657). -/
def advancedBranch (s : UAcousticSettings) (advancedCount : ℕ) (d : EAcousticLOD) :
    EAcousticLOD × ℕ :=
  if d = EAcousticLOD.advanced then
    if s.maxAdvancedSources ≤ advancedCount then (EAcousticLOD.basic, advancedCount)
    else (EAcousticLOD.advanced, advancedCount + 1)
  else (d, advancedCount)

/-- Embedding of the per-entry body of the LOD-assignment loop of
UpdateSourcePriorities (lines 612-658): distance downgrade, then the
Hero and Advanced concurrency branches; returns the final LOD and the
updated Hero/Advanced running counts. -/
def lodStep (s : UAcousticSettings) (heroCount advancedCount : ℕ)
    (e : FAcousticSourceEntry) : EAcousticLOD × ℕ × ℕ :=
  let heroStep := heroBranch s heroCount (distanceDowngrade s e)
  let advancedStep := advancedBranch s advancedCount heroStep.1
  (advancedStep.1, heroStep.2, advancedStep.2)

/-- Embedding of the LOD-assignment loop of UpdateSourcePriorities:
entries whose component no longer resolves are skipped unchanged, the
others receive their effective LOD and audibility flag. -/
def assignLODs (s : UAcousticSettings) :
    ℕ → ℕ → List FAcousticSourceEntry → List FAcousticSourceEntry
  | _, _, [] => []
  | heroCount, advancedCount, e :: rest =>
    if e.sourceValid = false then
      e :: assignLODs s heroCount advancedCount rest
    else
      let step := lodStep s heroCount advancedCount e
      { e with effectiveLOD := step.1,
               bIsAudible := decide (step.1 ≠ EAcousticLOD.off) }
        :: assignLODs s step.2.1 step.2.2 rest

/-- Embedding of UAcousticEngineSubsystem::UpdateSourcePriorities: the
scoring loop is represented by the priorityScore oracle field, the
TArray::Sort by a descending merge sort (the C++ comparator is the
strict A.Value > B.Value and the sort is unstable, so the order among
equal scores is unspecified there; the count properties proved below
are permutation-invariant), followed by the LOD-assignment loop with
both running counts starting at zero. -/
def updateSourcePriorities (s : UAcousticSettings)
    (entries : List FAcousticSourceEntry) : List FAcousticSourceEntry :=
  assignLODs s 0 0 (entries.mergeSort (fun a b => b.priorityScore ≤ a.priorityScore))

/-- Helper: the Hero branch of the LOD loop increments the Hero count
exactly when it hands out Hero, and only below the cap. -/
theorem heroBranch_spec (s : UAcousticSettings) (h : ℕ) (d : EAcousticLOD) :
    ((heroBranch s h d).1 = EAcousticLOD.hero →
      (heroBranch s h d).2 = h + 1 ∧ h < s.maxHeroSources) ∧
    ((heroBranch s h d).1 ≠ EAcousticLOD.hero → (heroBranch s h d).2 = h) := by
  unfold heroBranch
  cases d <;> split_ifs <;> simp_all [not_le]

/-- Helper: the Advanced branch increments the Advanced count exactly
when it hands out Advanced, and only below the cap. -/
theorem advancedBranch_spec (s : UAcousticSettings) (a : ℕ) (d : EAcousticLOD) :
    ((advancedBranch s a d).1 = EAcousticLOD.advanced →
      (advancedBranch s a d).2 = a + 1 ∧ a < s.maxAdvancedSources) ∧
    ((advancedBranch s a d).1 ≠ EAcousticLOD.advanced → (advancedBranch s a d).2 = a) := by
  unfold advancedBranch
  cases d <;> split_ifs <;> simp_all [not_le]

/-- Helper: the combined per-entry step hands out Hero exactly when the
Hero branch does, since the Advanced branch never produces Hero. -/
theorem lodStep_hero (s : UAcousticSettings) (h a : ℕ) (e : FAcousticSourceEntry) :
    ((lodStep s h a e).1 = EAcousticLOD.hero →
      (lodStep s h a e).2.1 = h + 1 ∧ h < s.maxHeroSources) ∧
    ((lodStep s h a e).1 ≠ EAcousticLOD.hero → (lodStep s h a e).2.1 = h) := by
  have h21 : (lodStep s h a e).2.1 = (heroBranch s h (distanceDowngrade s e)).2 := rfl
  have h1iff : ((lodStep s h a e).1 = EAcousticLOD.hero) ↔
      ((heroBranch s h (distanceDowngrade s e)).1 = EAcousticLOD.hero) := by
    show ((advancedBranch s a (heroBranch s h (distanceDowngrade s e)).1).1 = _) ↔ _
    rcases hb : (heroBranch s h (distanceDowngrade s e)).1 <;>
      simp [advancedBranch] <;> split_ifs <;> simp_all
  constructor
  · intro hl
    rw [h21]
    exact (heroBranch_spec s h _).1 (h1iff.mp hl)
  · intro hl
    rw [h21]
    exact (heroBranch_spec s h _).2 (fun hh => hl (h1iff.mpr hh))

/-- Helper: the combined per-entry step counts Advanced through the
Advanced branch applied after the Hero branch. -/
theorem lodStep_advanced (s : UAcousticSettings) (h a : ℕ) (e : FAcousticSourceEntry) :
    ((lodStep s h a e).1 = EAcousticLOD.advanced →
      (lodStep s h a e).2.2 = a + 1 ∧ a < s.maxAdvancedSources) ∧
    ((lodStep s h a e).1 ≠ EAcousticLOD.advanced → (lodStep s h a e).2.2 = a) := by
  exact ⟨fun hl => (advancedBranch_spec s a _).1 hl,
         fun hl => (advancedBranch_spec s a _).2 hl⟩

/-- Helper: along the LOD loop, the number of valid entries assigned
Hero plus the running Hero count never exceeds max(start, cap). -/
theorem assignLODs_hero_bound (s : UAcousticSettings) (es : List FAcousticSourceEntry) :
    ∀ h a, (assignLODs s h a es).countP
        (fun e => e.sourceValid && (e.effectiveLOD == EAcousticLOD.hero)) + h
      ≤ max h s.maxHeroSources := by
  induction es with
  | nil =>
    intro h a
    simpa [assignLODs] using le_max_left h s.maxHeroSources
  | cons e rest ih =>
    intro h a
    by_cases hv : e.sourceValid = false
    · have hrw : assignLODs s h a (e :: rest) = e :: assignLODs s h a rest := by
        simp [assignLODs, hv]
      rw [hrw, List.countP_cons]
      have hpred : (e.sourceValid && (e.effectiveLOD == EAcousticLOD.hero)) = false := by
        simp [hv]
      simp only [hpred, Bool.false_eq_true, if_false, add_zero]
      exact ih h a
    · simp only [assignLODs, if_neg hv, List.countP_cons]
      by_cases hl : (lodStep s h a e).1 = EAcousticLOD.hero
      · obtain ⟨hcount, hlt⟩ := (lodStep_hero s h a e).1 hl
        rw [show (e.sourceValid && ((lodStep s h a e).1 == EAcousticLOD.hero)) = true
            from by simp [hl, show e.sourceValid = true from by simpa using hv]]
        rw [hcount]
        have ihh := ih (h + 1) (lodStep s h a e).2.2
        have hmax : max (h+1) s.maxHeroSources = s.maxHeroSources :=
          max_eq_right (Nat.succ_le_of_lt hlt)
        rw [hmax] at ihh
        have hmax2 : s.maxHeroSources ≤ max h s.maxHeroSources := le_max_right h _
        simp only [if_true]
        omega
      · have hcount := (lodStep_hero s h a e).2 hl
        rw [show (e.sourceValid && ((lodStep s h a e).1 == EAcousticLOD.hero)) = false
            from by simp [hl]]
        rw [hcount]
        simp only [Bool.false_eq_true, if_false, add_zero]
        exact ih h (lodStep s h a e).2.2

/-- Helper: along the LOD loop, the number of valid entries assigned
Advanced plus the running Advanced count never exceeds max(start, cap). -/
theorem assignLODs_advanced_bound (s : UAcousticSettings) (es : List FAcousticSourceEntry) :
    ∀ h a, (assignLODs s h a es).countP
        (fun e => e.sourceValid && (e.effectiveLOD == EAcousticLOD.advanced)) + a
      ≤ max a s.maxAdvancedSources := by
  induction es with
  | nil =>
    intro h a
    simpa [assignLODs] using le_max_left a s.maxAdvancedSources
  | cons e rest ih =>
    intro h a
    by_cases hv : e.sourceValid = false
    · have hrw : assignLODs s h a (e :: rest) = e :: assignLODs s h a rest := by
        simp [assignLODs, hv]
      rw [hrw, List.countP_cons]
      have hpred : (e.sourceValid && (e.effectiveLOD == EAcousticLOD.advanced)) = false := by
        simp [hv]
      simp only [hpred, Bool.false_eq_true, if_false, add_zero]
      exact ih h a
    · simp only [assignLODs, if_neg hv, List.countP_cons]
      by_cases hl : (lodStep s h a e).1 = EAcousticLOD.advanced
      · obtain ⟨hcount, hlt⟩ := (lodStep_advanced s h a e).1 hl
        rw [show (e.sourceValid && ((lodStep s h a e).1 == EAcousticLOD.advanced)) = true
            from by simp [hl, show e.sourceValid = true from by simpa using hv]]
        rw [hcount]
        have ihh := ih (lodStep s h a e).2.1 (a + 1)
        have hmax : max (a+1) s.maxAdvancedSources = s.maxAdvancedSources :=
          max_eq_right (Nat.succ_le_of_lt hlt)
        rw [hmax] at ihh
        have hmax2 : s.maxAdvancedSources ≤ max a s.maxAdvancedSources := le_max_right a _
        simp only [if_true]
        omega
      · have hcount := (lodStep_advanced s h a e).2 hl
        rw [show (e.sourceValid && ((lodStep s h a e).1 == EAcousticLOD.advanced)) = false
            from by simp [hl]]
        rw [hcount]
        simp only [Bool.false_eq_true, if_false, add_zero]
        exact ih (lodStep s h a e).2.1 a

/-- Helper: a disjunction of predicates is counted at most as often as
the two predicates together. -/
theorem countP_or_le {α : Type} (l : List α) (p q : α → Bool) :
    l.countP (fun x => p x || q x) ≤ l.countP p + l.countP q := by
  induction l with
  | nil => simp
  | cons x xs ih =>
    simp only [List.countP_cons]
    cases hp : p x <;> cases hq : q x <;> simp [hp, hq] <;> omega

/-- C2 amended: after every LOD-assignment pass, the number of (live)
sources at Hero is at most MaxHeroSources and the number at Advanced is
at most MaxAdvancedSources; the combined Advanced-or-Hero population is
therefore bounded by MaxAdvancedSources + MaxHeroSources, not by
MaxAdvancedSources alone (Hero sources are not counted against the
Advanced cap). -/
theorem lod_caps (s : UAcousticSettings) (entries : List FAcousticSourceEntry) :
    (updateSourcePriorities s entries).countP
        (fun e => e.sourceValid && (e.effectiveLOD == EAcousticLOD.hero))
      ≤ s.maxHeroSources ∧
    (updateSourcePriorities s entries).countP
        (fun e => e.sourceValid && (e.effectiveLOD == EAcousticLOD.advanced))
      ≤ s.maxAdvancedSources ∧
    (updateSourcePriorities s entries).countP
        (fun e => e.sourceValid &&
          ((e.effectiveLOD == EAcousticLOD.advanced) || (e.effectiveLOD == EAcousticLOD.hero)))
      ≤ s.maxAdvancedSources + s.maxHeroSources := by
  set sorted := entries.mergeSort (fun a b => b.priorityScore ≤ a.priorityScore) with hs
  have hhero := assignLODs_hero_bound s sorted 0 0
  have hadv := assignLODs_advanced_bound s sorted 0 0
  rw [add_zero, Nat.max_eq_right (Nat.zero_le _)] at hhero hadv
  refine ⟨hhero, hadv, ?_⟩
  have hsplit : (updateSourcePriorities s entries).countP
      (fun e => e.sourceValid &&
        ((e.effectiveLOD == EAcousticLOD.advanced) || (e.effectiveLOD == EAcousticLOD.hero)))
      ≤ (updateSourcePriorities s entries).countP
          (fun e => e.sourceValid && (e.effectiveLOD == EAcousticLOD.advanced)) +
        (updateSourcePriorities s entries).countP
          (fun e => e.sourceValid && (e.effectiveLOD == EAcousticLOD.hero)) := by
    have := countP_or_le (updateSourcePriorities s entries)
      (fun e => e.sourceValid && (e.effectiveLOD == EAcousticLOD.advanced))
      (fun e => e.sourceValid && (e.effectiveLOD == EAcousticLOD.hero))
    simpa [Bool.and_or_distrib_left] using this
  exact le_trans hsplit (Nat.add_le_add hadv hhero)

/-- Helper: a list that is a permutation of a two-element repetition is
that repetition itself. -/
theorem perm_pair_eq {α : Type} {l : List α} {x : α} (h : l.Perm [x, x]) : l = [x, x] := by
  have hlen : l.length = 2 := by simpa using h.length_eq
  have hmem : ∀ y ∈ l, y = x := by
    intro y hy
    have := h.subset hy
    simpa using this
  rcases l with _ | ⟨a, rest⟩
  · simp at hlen
  rcases rest with _ | ⟨b, rest2⟩
  · simp at hlen
  rcases rest2 with _ | ⟨c, rest3⟩
  · rw [hmem a (by simp), hmem b (by simp)]
  · simp at hlen

/-- Settings hitting both concurrency caps at 1, within the config
clamp ranges of AcousticSettings.h. -/
def capsSettings : UAcousticSettings := { maxHeroSources := 1, maxAdvancedSources := 1 }

/-- A live source configured at Hero LOD, 1 m from the listener (well
inside both LOD distance thresholds). -/
def heroEntry : FAcousticSourceEntry :=
  { acousticLOD := .hero, currentParams := { distance := 100 } }

/-- C2 counterexample: with MaxHeroSources = 1 and MaxAdvancedSources =
1, two nearby Hero-configured sources are assigned Hero and Advanced
respectively, so count(EffectiveLOD = Advanced or Hero) = 2 exceeds
MaxAdvancedSources = 1 — a Hero source is not counted against the
Advanced cap, contradicting the claimed bound. -/
theorem lod_caps_counterexample :
    (updateSourcePriorities capsSettings [heroEntry, heroEntry]).countP
        (fun e => e.sourceValid &&
          ((e.effectiveLOD == EAcousticLOD.advanced) || (e.effectiveLOD == EAcousticLOD.hero)))
      = 2 ∧
    capsSettings.maxAdvancedSources = 1 ∧ ¬ (2 ≤ 1) := by
  have hsort : ([heroEntry, heroEntry] : List FAcousticSourceEntry).mergeSort
      (fun a b => b.priorityScore ≤ a.priorityScore) = [heroEntry, heroEntry] :=
    perm_pair_eq (List.mergeSort_perm _ _)
  refine ⟨?_, rfl, by omega⟩
  rw [updateSourcePriorities, hsort]
  norm_num [assignLODs, lodStep, heroBranch, advancedBranch, distanceDowngrade,
    capsSettings, heroEntry, EAcousticLOD.toNat, List.countP_cons]
  decide

/-! Ray budget and the occlusion / reflection passes
    (AcousticEngineSubsystem.cpp: ProcessAcousticUpdate lines 523-568,
    ProcessOcclusion lines 664-723, ProcessReflections lines 725-787,
    ClusterReflections lines 826-879). -/

/-- Embedding of FRayBudget (AcousticTypes.h): per-frame ray counters. -/
structure FRayBudget where
  occlusionRays : ℕ := 0
  reflectionRays : ℕ := 0
  totalRaysUsed : ℕ := 0
  totalRaysBudget : ℕ := 0
deriving DecidableEq, Repr

/-- Embedding of the per-tap construction inside
UAcousticEngineSubsystem::ClusterReflections (lines 851-871): delay
from path length at the speed of sound, gain from distance (cm to
meters) and average absorption, LPF from high-band absorption; azimuth
and elevation are left at zero as in the source. -/
def mkReflectionTap (hit : FAcousticRayHit) : FReflectionTap :=
  let distanceAtten := 1 / max (hit.distance / 100) 1
  let materialAtten := 1 - hit.material.getAverageAbsorption
  { delayMs := hit.distance / speedOfSound * 1000,
    gain := clampQ (distanceAtten * materialAtten * (1/2)) 0 1,
    lpfCutoff := lerpQ defaultLPFCutoff 3000 hit.material.highAbsorption,
    azimuth := 0,
    elevation := 0,
    bIsValid := true }

/-- Embedding of UAcousticEngineSubsystem::ClusterReflections: reset,
early return on no hits, sort by distance ascending (the C++ comparator
is the strict A.Distance < B.Distance on an unstable TArray::Sort, so
the order among equal distances is unspecified there), density from the
hit count, then up to MaxTaps taps from the nearest hits with the
remaining taps left at their reset defaults. -/
def clusterReflections (hits : List FAcousticRayHit) : FEarlyReflectionParams :=
  if hits.length = 0 then {}
  else
    let sortedHits := hits.mergeSort (fun a b => a.distance ≤ b.distance)
    let density := clampQ ((hits.length : ℚ) / 20) 0 1
    let numTaps := min sortedHits.length maxTaps
    let taps := (sortedHits.take maxTaps).map mkReflectionTap
    let totalDelay := (taps.map FReflectionTap.delayMs).sum
    { taps := taps ++ List.replicate (maxTaps - numTaps) {},
      validTapCount := numTaps,
      averageDelayMs := if 0 < numTaps then totalDelay / (numTaps : ℚ) else 0,
      reflectionDensity := density }

/-- Embedding of UAcousticEngineSubsystem::ProcessOcclusion as
structural recursion over the registered entries: Off entries are
skipped, the pass breaks outright once TotalRaysUsed reaches
TotalRaysBudget (returning the remaining entries untouched), stale
components and cache-fresh entries are skipped, and otherwise the entry
is retraced (previous parameters snapshotted) and one ray charged. -/
def processOcclusion (s : UAcousticSettings) (now : ℚ) :
    FRayBudget → List FAcousticSourceEntry → FRayBudget × List FAcousticSourceEntry
  | b, [] => (b, [])
  | b, e :: rest =>
    if e.effectiveLOD = EAcousticLOD.off then
      let r := processOcclusion s now b rest
      (r.1, e :: r.2)
    else if b.totalRaysBudget ≤ b.totalRaysUsed then
      (b, e :: rest)
    else if e.sourceValid = false then
      let r := processOcclusion s now b rest
      (r.1, e :: r.2)
    else if now - e.lastOcclusionUpdateTime < (s.occlusionCacheFrames : ℚ) / 60 ∧
        e.currentParams.bIsValid = true then
      let r := processOcclusion s now b rest
      (r.1, e :: r.2)
    else
      let occlusion := traceOcclusion s e.occlHit
      let e2 := { e with
        previousParams := e.currentParams,
        currentParams := { e.currentParams with
          occlusion := occlusion,
          lowPassCutoff := computeLPFFromOcclusion occlusion e.occlHit.material,
          transmissionGain := processedTransmissionGain occlusion e.occlHit,
          bIsValid := true },
        lastOcclusionUpdateTime := now }
      let b2 := { b with occlusionRays := b.occlusionRays + 1,
                         totalRaysUsed := b.totalRaysUsed + 1 }
      let r := processOcclusion s now b2 rest
      (r.1, e2 :: r.2)

/-- Embedding of the C++ ternary selecting the per-LOD reflection ray
count (ProcessReflections lines 752-753). -/
def numRaysFor (s : UAcousticSettings) (lod : EAcousticLOD) : ℕ :=
  if lod = EAcousticLOD.hero then s.heroReflectionRays else s.advancedReflectionRays

/-- Embedding of UAcousticEngineSubsystem::ProcessReflections as
structural recursion over the registered entries: Basic entries get the
zone default reverb send and a reset tap set, non-Advanced/Hero entries
are otherwise untouched; an Advanced/Hero entry is processed only when
its whole per-LOD ray count fits in the remaining budget (otherwise the
pass continues to the next entry without charging), sampling and
clustering its oracle hits and charging the full count. -/
def processReflections (s : UAcousticSettings) (now zoneDefaultSend : ℚ) :
    FRayBudget → List FAcousticSourceEntry → FRayBudget × List FAcousticSourceEntry
  | b, [] => (b, [])
  | b, e :: rest =>
    if e.effectiveLOD ≠ EAcousticLOD.advanced ∧ e.effectiveLOD ≠ EAcousticLOD.hero then
      if e.effectiveLOD = EAcousticLOD.basic then
        let e2 := { e with currentParams := { e.currentParams with
          reverbSend := zoneDefaultSend,
          earlyReflections := e.currentParams.earlyReflections.reset } }
        let r := processReflections s now zoneDefaultSend b rest
        (r.1, e2 :: r.2)
      else
        let r := processReflections s now zoneDefaultSend b rest
        (r.1, e :: r.2)
    else
      let numRays := numRaysFor s e.effectiveLOD
      if b.totalRaysBudget < b.totalRaysUsed + numRays then
        let r := processReflections s now zoneDefaultSend b rest
        (r.1, e :: r.2)
      else if e.sourceValid = false then
        let r := processReflections s now zoneDefaultSend b rest
        (r.1, e :: r.2)
      else
        let er := clusterReflections e.reflHits
        let e2 := { e with
          currentParams := { e.currentParams with
            earlyReflections := er,
            reverbSend := lerpQ zoneDefaultSend (zoneDefaultSend * (3/2)) er.reflectionDensity },
          lastReflectionUpdateTime := now }
        let b2 := { b with reflectionRays := b.reflectionRays + numRays,
                           totalRaysUsed := b.totalRaysUsed + numRays }
        let r := processReflections s now zoneDefaultSend b2 rest
        (r.1, e2 :: r.2)

/-- Ray-charge accounting of ProcessReflections: the rays charged for
each entry in order, given the fixed budget and the running used count;
an entry is charged its full per-LOD count exactly when it is
Advanced/Hero, the count fits in the remaining budget, and its
component is live — otherwise zero. -/
def reflCharges (s : UAcousticSettings) (budget : ℕ) :
    ℕ → List FAcousticSourceEntry → List ℕ
  | _, [] => []
  | used, e :: rest =>
    if (e.effectiveLOD = EAcousticLOD.advanced ∨ e.effectiveLOD = EAcousticLOD.hero) ∧
        used + numRaysFor s e.effectiveLOD ≤ budget ∧ e.sourceValid = true then
      numRaysFor s e.effectiveLOD ::
        reflCharges s budget (used + numRaysFor s e.effectiveLOD) rest
    else 0 :: reflCharges s budget used rest

/-- Embedding of the budget-relevant portion of
UAcousticEngineSubsystem::ProcessAcousticUpdate: the ray budget is
reset (budget re-read from MaxRaysPerFrame, counters zeroed) and the
rate-gated occlusion and reflection passes run when their accumulators
fire (the Boolean flags). -/
def acousticTickBudget (s : UAcousticSettings) (now zoneDefaultSend : ℚ)
    (runOcclusion runReflections : Bool) (entries : List FAcousticSourceEntry) :
    FRayBudget × List FAcousticSourceEntry :=
  let b0 : FRayBudget := { occlusionRays := 0, reflectionRays := 0,
                           totalRaysUsed := 0, totalRaysBudget := s.maxRaysPerFrame }
  let r1 := if runOcclusion then processOcclusion s now b0 entries else (b0, entries)
  if runReflections then processReflections s now zoneDefaultSend r1.1 r1.2 else r1

/-- Helper: the occlusion pass never pushes the used counter past
max(start, budget) and never touches the budget field. -/
theorem processOcclusion_bound (s : UAcousticSettings) (now : ℚ)
    (es : List FAcousticSourceEntry) : ∀ b : FRayBudget,
    (processOcclusion s now b es).1.totalRaysUsed ≤ max b.totalRaysUsed b.totalRaysBudget ∧
    (processOcclusion s now b es).1.totalRaysBudget = b.totalRaysBudget := by
  induction es with
  | nil => intro b; exact ⟨le_max_left _ _, rfl⟩
  | cons e rest ih =>
    intro b
    by_cases h1 : e.effectiveLOD = EAcousticLOD.off
    · simp only [processOcclusion, if_pos h1]
      exact ⟨(ih b).1, (ih b).2⟩
    · simp only [processOcclusion, if_neg h1]
      by_cases h2 : b.totalRaysBudget ≤ b.totalRaysUsed
      · simp only [if_pos h2]
        exact ⟨le_max_left _ _, by trivial⟩
      · simp only [if_neg h2]
        by_cases h3 : e.sourceValid = false
        · simp only [if_pos h3]
          exact ⟨(ih b).1, (ih b).2⟩
        · simp only [if_neg h3]
          by_cases h4 : now - e.lastOcclusionUpdateTime < (s.occlusionCacheFrames : ℚ)/60 ∧
              e.currentParams.bIsValid = true
          · simp only [if_pos h4]
            exact ⟨(ih b).1, (ih b).2⟩
          · simp only [if_neg h4]
            have hb2 := ih { b with occlusionRays := b.occlusionRays + 1,
                                    totalRaysUsed := b.totalRaysUsed + 1 }
            have h5 : b.totalRaysUsed + 1 ≤ b.totalRaysBudget := Nat.lt_of_not_le h2
            constructor
            · refine le_trans hb2.1 ?_
              show max (b.totalRaysUsed + 1) b.totalRaysBudget ≤
                max b.totalRaysUsed b.totalRaysBudget
              rw [max_eq_right h5]
              exact le_max_right _ _
            · exact hb2.2

/-- Helper: once the used count has reached the budget, the occlusion
pass is the identity: no entry is updated and no ray is charged. -/
theorem processOcclusion_stop (s : UAcousticSettings) (now : ℚ)
    (es : List FAcousticSourceEntry) : ∀ b : FRayBudget,
    b.totalRaysBudget ≤ b.totalRaysUsed → processOcclusion s now b es = (b, es) := by
  induction es with
  | nil => intro b _; rfl
  | cons e rest ih =>
    intro b hb
    by_cases h1 : e.effectiveLOD = EAcousticLOD.off
    · simp only [processOcclusion, if_pos h1, ih b hb]
    · simp only [processOcclusion, if_neg h1, if_pos hb]

/-- Helper: the reflection pass never pushes the used counter past
max(start, budget) and never touches the budget field. -/
theorem processReflections_bound (s : UAcousticSettings) (now z : ℚ)
    (es : List FAcousticSourceEntry) : ∀ b : FRayBudget,
    (processReflections s now z b es).1.totalRaysUsed ≤ max b.totalRaysUsed b.totalRaysBudget ∧
    (processReflections s now z b es).1.totalRaysBudget = b.totalRaysBudget := by
  induction es with
  | nil => intro b; exact ⟨le_max_left _ _, rfl⟩
  | cons e rest ih =>
    intro b
    by_cases h1 : e.effectiveLOD ≠ EAcousticLOD.advanced ∧ e.effectiveLOD ≠ EAcousticLOD.hero
    · by_cases h2 : e.effectiveLOD = EAcousticLOD.basic
      · simp only [processReflections, if_pos h1, if_pos h2]
        exact ⟨(ih b).1, (ih b).2⟩
      · simp only [processReflections, if_pos h1, if_neg h2]
        exact ⟨(ih b).1, (ih b).2⟩
    · simp only [processReflections, if_neg h1]
      by_cases h3 : b.totalRaysBudget < b.totalRaysUsed + numRaysFor s e.effectiveLOD
      · simp only [if_pos h3]
        exact ⟨(ih b).1, (ih b).2⟩
      · simp only [if_neg h3]
        by_cases h4 : e.sourceValid = false
        · simp only [if_pos h4]
          exact ⟨(ih b).1, (ih b).2⟩
        · simp only [if_neg h4]
          have hb2 := ih { b with
            reflectionRays := b.reflectionRays + numRaysFor s e.effectiveLOD,
            totalRaysUsed := b.totalRaysUsed + numRaysFor s e.effectiveLOD }
          have h5 : b.totalRaysUsed + numRaysFor s e.effectiveLOD ≤ b.totalRaysBudget :=
            Nat.le_of_not_lt h3
          constructor
          · refine le_trans hb2.1 ?_
            show max (b.totalRaysUsed + numRaysFor s e.effectiveLOD) b.totalRaysBudget ≤
              max b.totalRaysUsed b.totalRaysBudget
            rw [max_eq_right h5]
            exact le_max_right _ _
          · exact hb2.2

/-- Helper: the used counter after the reflection pass is the starting
count plus the per-entry charge list, and each entry is charged either
zero rays or exactly its full per-LOD ray count. -/
theorem processReflections_charges (s : UAcousticSettings) (now z : ℚ)
    (es : List FAcousticSourceEntry) : ∀ b : FRayBudget,
    (processReflections s now z b es).1.totalRaysUsed
        = b.totalRaysUsed + (reflCharges s b.totalRaysBudget b.totalRaysUsed es).sum ∧
    List.Forall₂ (fun e c => c = 0 ∨ c = numRaysFor s e.effectiveLOD) es
      (reflCharges s b.totalRaysBudget b.totalRaysUsed es) := by
  induction es with
  | nil => intro b; exact ⟨by simp [processReflections, reflCharges], List.Forall₂.nil⟩
  | cons e rest ih =>
    intro b
    by_cases h1 : e.effectiveLOD ≠ EAcousticLOD.advanced ∧ e.effectiveLOD ≠ EAcousticLOD.hero
    · have hcond : ¬((e.effectiveLOD = EAcousticLOD.advanced ∨
          e.effectiveLOD = EAcousticLOD.hero) ∧
          b.totalRaysUsed + numRaysFor s e.effectiveLOD ≤ b.totalRaysBudget ∧
          e.sourceValid = true) := by
        rintro ⟨h3 | h3, _⟩
        · exact h1.1 h3
        · exact h1.2 h3
      have hch : reflCharges s b.totalRaysBudget b.totalRaysUsed (e :: rest) =
          0 :: reflCharges s b.totalRaysBudget b.totalRaysUsed rest := by
        simp only [reflCharges, if_neg hcond]
      by_cases h2 : e.effectiveLOD = EAcousticLOD.basic
      · simp only [processReflections, if_pos h1, if_pos h2, hch, List.sum_cons]
        exact ⟨by rw [(ih b).1]; omega, List.Forall₂.cons (Or.inl rfl) (ih b).2⟩
      · simp only [processReflections, if_pos h1, if_neg h2, hch, List.sum_cons]
        exact ⟨by rw [(ih b).1]; omega, List.Forall₂.cons (Or.inl rfl) (ih b).2⟩
    · have hor : e.effectiveLOD = EAcousticLOD.advanced ∨ e.effectiveLOD = EAcousticLOD.hero := by
        rcases not_and_or.mp h1 with h | h
        · exact Or.inl (not_not.mp h)
        · exact Or.inr (not_not.mp h)
      simp only [processReflections, if_neg h1]
      by_cases h3 : b.totalRaysBudget < b.totalRaysUsed + numRaysFor s e.effectiveLOD
      · have hcond : ¬((e.effectiveLOD = EAcousticLOD.advanced ∨
            e.effectiveLOD = EAcousticLOD.hero) ∧
            b.totalRaysUsed + numRaysFor s e.effectiveLOD ≤ b.totalRaysBudget ∧
            e.sourceValid = true) := by
          rintro ⟨_, hle, _⟩
          exact absurd hle (Nat.not_le_of_lt h3)
        have hch : reflCharges s b.totalRaysBudget b.totalRaysUsed (e :: rest) =
            0 :: reflCharges s b.totalRaysBudget b.totalRaysUsed rest := by
          simp only [reflCharges, if_neg hcond]
        simp only [if_pos h3, hch, List.sum_cons]
        exact ⟨by rw [(ih b).1]; omega, List.Forall₂.cons (Or.inl rfl) (ih b).2⟩
      · simp only [if_neg h3]
        by_cases h4 : e.sourceValid = false
        · have hcond : ¬((e.effectiveLOD = EAcousticLOD.advanced ∨
              e.effectiveLOD = EAcousticLOD.hero) ∧
              b.totalRaysUsed + numRaysFor s e.effectiveLOD ≤ b.totalRaysBudget ∧
              e.sourceValid = true) := by
            rintro ⟨_, _, hv⟩
            rw [h4] at hv
            cases hv
          have hch : reflCharges s b.totalRaysBudget b.totalRaysUsed (e :: rest) =
              0 :: reflCharges s b.totalRaysBudget b.totalRaysUsed rest := by
            simp only [reflCharges, if_neg hcond]
          simp only [if_pos h4, hch, List.sum_cons]
          exact ⟨by rw [(ih b).1]; omega, List.Forall₂.cons (Or.inl rfl) (ih b).2⟩
        · have hv : e.sourceValid = true := by simpa using h4
          have hcond : (e.effectiveLOD = EAcousticLOD.advanced ∨
              e.effectiveLOD = EAcousticLOD.hero) ∧
              b.totalRaysUsed + numRaysFor s e.effectiveLOD ≤ b.totalRaysBudget ∧
              e.sourceValid = true := ⟨hor, Nat.le_of_not_lt h3, hv⟩
          have hch : reflCharges s b.totalRaysBudget b.totalRaysUsed (e :: rest) =
              numRaysFor s e.effectiveLOD ::
                reflCharges s b.totalRaysBudget
                  (b.totalRaysUsed + numRaysFor s e.effectiveLOD) rest := by
            simp only [reflCharges, if_pos hcond]
          have ihh := ih { b with
            reflectionRays := b.reflectionRays + numRaysFor s e.effectiveLOD,
            totalRaysUsed := b.totalRaysUsed + numRaysFor s e.effectiveLOD }
          simp only [if_neg h4, hch, List.sum_cons]
          constructor
          · rw [ihh.1]
            show b.totalRaysUsed + numRaysFor s e.effectiveLOD +
                (reflCharges s b.totalRaysBudget
                  (b.totalRaysUsed + numRaysFor s e.effectiveLOD) rest).sum =
              b.totalRaysUsed + (numRaysFor s e.effectiveLOD +
                (reflCharges s b.totalRaysBudget
                  (b.totalRaysUsed + numRaysFor s e.effectiveLOD) rest).sum)
            omega
          · exact List.Forall₂.cons (Or.inr rfl) ihh.2

/-- C1: over a whole acoustic-update tick (budget reset, then the
rate-gated occlusion and reflection passes), TotalRaysUsed ends at or
below TotalRaysBudget (= MaxRaysPerFrame); the occlusion pass is a hard
stop — once the used count has reached the budget it changes nothing
and casts nothing; and the reflection pass charges every source either
zero rays or exactly its full per-LOD ray count, the full count only
when it fits in the remaining budget. -/
theorem ray_budget_invariant (s : UAcousticSettings) (now zoneSend : ℚ)
    (runO runR : Bool) (entries : List FAcousticSourceEntry) :
    ((acousticTickBudget s now zoneSend runO runR entries).1.totalRaysUsed
        ≤ s.maxRaysPerFrame ∧
      (acousticTickBudget s now zoneSend runO runR entries).1.totalRaysBudget
        = s.maxRaysPerFrame) ∧
    (∀ (b : FRayBudget) (es : List FAcousticSourceEntry),
      b.totalRaysBudget ≤ b.totalRaysUsed → processOcclusion s now b es = (b, es)) ∧
    (∀ (b : FRayBudget) (es : List FAcousticSourceEntry),
      (processReflections s now zoneSend b es).1.totalRaysUsed
          = b.totalRaysUsed + (reflCharges s b.totalRaysBudget b.totalRaysUsed es).sum ∧
      List.Forall₂ (fun e c => c = 0 ∨ c = numRaysFor s e.effectiveLOD) es
        (reflCharges s b.totalRaysBudget b.totalRaysUsed es)) := by
  refine ⟨?_, fun b es hb => processOcclusion_stop s now es b hb,
          fun b es => processReflections_charges s now zoneSend es b⟩
  have hmax0 : max (0 : ℕ) s.maxRaysPerFrame = s.maxRaysPerFrame :=
    max_eq_right (Nat.zero_le _)
  unfold acousticTickBudget
  set b0 : FRayBudget := { occlusionRays := 0, reflectionRays := 0,
                           totalRaysUsed := 0, totalRaysBudget := s.maxRaysPerFrame } with hb0
  have hocc : (if runO then processOcclusion s now b0 entries else (b0, entries)).1.totalRaysUsed
        ≤ s.maxRaysPerFrame ∧
      (if runO then processOcclusion s now b0 entries
          else (b0, entries)).1.totalRaysBudget = s.maxRaysPerFrame := by
    cases runO
    · exact ⟨Nat.zero_le _, rfl⟩
    · have hb := processOcclusion_bound s now entries b0
      refine ⟨le_trans hb.1 ?_, hb.2⟩
      show max b0.totalRaysUsed b0.totalRaysBudget ≤ s.maxRaysPerFrame
      rw [show b0.totalRaysUsed = 0 from rfl, show b0.totalRaysBudget = s.maxRaysPerFrame from rfl,
        hmax0]
  set r1 := if runO then processOcclusion s now b0 entries else (b0, entries) with hr1
  cases runR
  · exact hocc
  · have hb := processReflections_bound s now zoneSend r1.2 r1.1
    constructor
    · show (processReflections s now zoneSend r1.1 r1.2).1.totalRaysUsed ≤ s.maxRaysPerFrame
      exact le_trans hb.1 (max_le hocc.1 (le_of_eq hocc.2))
    · show (processReflections s now zoneSend r1.1 r1.2).1.totalRaysBudget = s.maxRaysPerFrame
      rw [hb.2, hocc.2]

/-- A budget whose used count already equals its cap. -/
def exhaustedBudget : FRayBudget :=
  { occlusionRays := 0, reflectionRays := 0, totalRaysUsed := 5, totalRaysBudget := 5 }

/-- Witness for C1: with the budget already exhausted, the occlusion
pass leaves a one-entry registry and the budget untouched. -/
theorem ray_budget_invariant_witness :
    processOcclusion ({} : UAcousticSettings) 0 exhaustedBudget
        [({} : FAcousticSourceEntry)] =
      (exhaustedBudget, [({} : FAcousticSourceEntry)]) :=
  (ray_budget_invariant {} 0 0 true true []).2.1 exhaustedBudget
    [({} : FAcousticSourceEntry)] (le_refl 5)

/-- C6: reflection clustering yields density clamp01(hitCount/20) and
min(hitCount, 8) valid taps taken from the distance-sorted nearest
hits, each tap carrying delay (distance / speedOfSound) * 1000, gain
clamp01(1/max(distance m, 1) * (1 - averageAbsorption) * 0.5) and an
LPF cutoff linearly interpolated from the default cutoff to 3000 Hz by
the high-band absorption; zero hits leave the reset state with no valid
taps and density zero. -/
theorem cluster_reflections_spec (hits : List FAcousticRayHit) :
    (clusterReflections hits).reflectionDensity = clampQ ((hits.length : ℚ) / 20) 0 1 ∧
    (clusterReflections hits).validTapCount = min hits.length maxTaps ∧
    (∃ sortedHits : List FAcousticRayHit, sortedHits.Perm hits ∧
      sortedHits.Pairwise (fun a b => a.distance ≤ b.distance) ∧
      (clusterReflections hits).taps =
        (sortedHits.take maxTaps).map mkReflectionTap ++
          List.replicate (maxTaps - min hits.length maxTaps) ({} : FReflectionTap)) ∧
    (∀ h : FAcousticRayHit, mkReflectionTap h =
      { delayMs := h.distance / speedOfSound * 1000,
        gain := clampQ (1 / max (h.distance / 100) 1 *
          (1 - h.material.getAverageAbsorption) * (1/2)) 0 1,
        lpfCutoff := (1 - h.material.highAbsorption) * defaultLPFCutoff +
          h.material.highAbsorption * 3000,
        azimuth := 0, elevation := 0, bIsValid := true }) ∧
    (hits = [] → clusterReflections hits = {} ∧
      ∀ t ∈ (clusterReflections hits).taps, t.bIsValid = false) := by
  have hmk : ∀ h : FAcousticRayHit, mkReflectionTap h =
      { delayMs := h.distance / speedOfSound * 1000,
        gain := clampQ (1 / max (h.distance / 100) 1 *
          (1 - h.material.getAverageAbsorption) * (1/2)) 0 1,
        lpfCutoff := (1 - h.material.highAbsorption) * defaultLPFCutoff +
          h.material.highAbsorption * 3000,
        azimuth := 0, elevation := 0, bIsValid := true } := by
    intro h
    simp only [mkReflectionTap, lerpQ, defaultLPFCutoff, FReflectionTap.mk.injEq]
    norm_num
    ring
  have hempty : ∀ t ∈ (({} : FEarlyReflectionParams)).taps, t.bIsValid = false := by
    intro t ht
    simp only [List.mem_replicate] at ht
    rw [ht.2]
  by_cases hn : hits.length = 0
  · have hnil : hits = [] := List.length_eq_zero.mp hn
    subst hnil
    refine ⟨by norm_num [clusterReflections, clampQ], by norm_num [clusterReflections, maxTaps],
      ⟨[], List.Perm.refl [], List.Pairwise.nil, ?_⟩, hmk, fun _ => ⟨rfl, hempty⟩⟩
    show (({} : FEarlyReflectionParams)).taps = [] ++ List.replicate (maxTaps - min 0 maxTaps) ({} : FReflectionTap)
    simp [maxTaps]
  · have hlen : (hits.mergeSort (fun a b => a.distance ≤ b.distance)).length = hits.length :=
      (List.mergeSort_perm hits _).length_eq
    have hcl : clusterReflections hits =
        { taps := ((hits.mergeSort (fun a b => a.distance ≤ b.distance)).take maxTaps).map
            mkReflectionTap ++
            List.replicate (maxTaps -
              min (hits.mergeSort (fun a b => a.distance ≤ b.distance)).length maxTaps) {},
          validTapCount :=
            min (hits.mergeSort (fun a b => a.distance ≤ b.distance)).length maxTaps,
          averageDelayMs := if 0 <
              min (hits.mergeSort (fun a b => a.distance ≤ b.distance)).length maxTaps then
            (((hits.mergeSort (fun a b => a.distance ≤ b.distance)).take maxTaps).map
              mkReflectionTap |>.map FReflectionTap.delayMs).sum /
              ((min (hits.mergeSort (fun a b => a.distance ≤ b.distance)).length maxTaps : ℕ) : ℚ)
            else 0,
          reflectionDensity := clampQ ((hits.length : ℚ) / 20) 0 1 } := by
      simp only [clusterReflections, if_neg hn]
    refine ⟨by rw [hcl], by rw [hcl, hlen], ?_, hmk, fun habs => absurd habs ?_⟩
    · refine ⟨hits.mergeSort (fun a b => a.distance ≤ b.distance),
        List.mergeSort_perm hits _, ?_, ?_⟩
      · have hs : (hits.mergeSort (fun a b => a.distance ≤ b.distance)).Pairwise
            (fun a b : FAcousticRayHit => (decide (a.distance ≤ b.distance)) = true) :=
          List.sorted_mergeSort
            (fun a b c hab hbc => by
              simp only [decide_eq_true_eq] at hab hbc ⊢
              exact le_trans hab hbc)
            (fun a b => by
              simp only [Bool.or_eq_true, decide_eq_true_eq]
              exact le_total a.distance b.distance) hits
        refine hs.imp ?_
        intro a b hab
        exact of_decide_eq_true hab
      · rw [hcl, hlen]
    · intro hnil
      rw [hnil] at hn
      exact hn rfl

/-- Witness for C6: clustering zero hits yields the reset parameter
block with no valid taps. -/
theorem cluster_reflections_spec_witness :
    clusterReflections [] = ({} : FEarlyReflectionParams) ∧
    (clusterReflections []).validTapCount = 0 :=
  ⟨((cluster_reflections_spec []).2.2.2.2 rfl).1,
   by simpa using (cluster_reflections_spec []).2.1⟩

/-! Priority scoring and hemisphere sampling, over the reals
    (AcousticSourceComponent.cpp, ComputePriorityScore lines 342-377;
    AcousticEngineSubsystem.cpp, GenerateHemisphereRays lines 911-939). -/

/-- Embedding of FVector with real components. -/
structure FVector where
  x : ℝ
  y : ℝ
  z : ℝ

/-- Embedding of FVector::DotProduct. -/
noncomputable def FVector.dot (a b : FVector) : ℝ := a.x * b.x + a.y * b.y + a.z * b.z

/-- Embedding of FVector::Dist. -/
noncomputable def FVector.dist (a b : FVector) : ℝ :=
  Real.sqrt ((a.x - b.x)^2 + (a.y - b.y)^2 + (a.z - b.z)^2)

/-- Embedding of FVector::Size (vector length). -/
noncomputable def FVector.size (a : FVector) : ℝ := Real.sqrt (a.dot a)

/-- Embedding of FVector::UpVector. -/
def upVector : FVector := ⟨0, 0, 1⟩

/-- Embedding of EAcousticImportance (AcousticTypes.h). -/
inductive EAcousticImportance where
  | background | normal | important | critical
deriving DecidableEq, Repr

/-- Embedding of the ImportanceMultipliers table of
ComputePriorityScore ({0.25, 1.0, 2.0, 10.0}; the in-bounds index
check always succeeds for the four enum values). -/
noncomputable def importanceMultiplier : EAcousticImportance → ℝ
  | .background => 1/4
  | .normal => 1
  | .important => 2
  | .critical => 10

/-- Embedding of FLT_MAX as the exact value of the largest finite
IEEE-754 single-precision float, (2 - 2^-23) * 2^127. -/
noncomputable def fltMax : ℝ := 2^128 - 2^104

/-- Embedding of the state of UAcousticSourceComponent read by
ComputePriorityScore: manual override, base loudness, importance, the
IsHero flag, and the acoustic location. -/
structure UAcousticSourceComponent where
  priorityOverride : ℝ
  baseLoudness : ℝ
  importance : EAcousticImportance
  isHero : Bool
  location : FVector

/-- Embedding of UAcousticSourceComponent::ComputePriorityScore:
manual override short-circuit, distance factor 1/(distance/100) with
the distance floored at 1 unit, importance multiplier, the 100x hero
boost, and the FLT_MAX override for Critical importance. -/
noncomputable def computePriorityScore (src : UAcousticSourceComponent)
    (listenerLocation : FVector) : ℝ :=
  if 0 ≤ src.priorityOverride then src.priorityOverride
  else
    let distance := max (src.location.dist listenerLocation) 1
    let distanceFactor := 1 / (distance / 100)
    let priority0 := src.baseLoudness * distanceFactor
    let priority1 := priority0 * importanceMultiplier src.importance
    let priority2 := if src.isHero then priority1 * 100 else priority1
    if src.importance = EAcousticImportance.critical then fltMax else priority2

/-- C5: with no manual override, the priority score is
baseLoudness * (100 / max(distance, 1)) * importanceMultiplier, times
100 for hero-flagged sources, with multipliers Background 0.25, Normal
1.0, Important 2.0; Critical importance forces the maximum
representable float value. -/
theorem priority_score_formula (src : UAcousticSourceComponent) (listener : FVector)
    (hov : src.priorityOverride < 0) :
    (src.importance ≠ EAcousticImportance.critical →
      computePriorityScore src listener =
        src.baseLoudness * (100 / max (src.location.dist listener) 1) *
          importanceMultiplier src.importance * (if src.isHero then 100 else 1)) ∧
    (src.importance = EAcousticImportance.critical →
      computePriorityScore src listener = fltMax) ∧
    importanceMultiplier .background = 1/4 ∧
    importanceMultiplier .normal = 1 ∧
    importanceMultiplier .important = 2 := by
  have hnotov : ¬ 0 ≤ src.priorityOverride := not_le.mpr hov
  refine ⟨?_, ?_, rfl, rfl, rfl⟩
  · intro hcrit
    simp only [computePriorityScore, if_neg hnotov, if_neg hcrit]
    have hdpos : (0 : ℝ) < max (src.location.dist listener) 1 :=
      lt_of_lt_of_le zero_lt_one (le_max_right _ _)
    have hfac : 1 / (max (src.location.dist listener) 1 / 100) =
        100 / max (src.location.dist listener) 1 := by
      rw [one_div_div]
    cases hh : src.isHero <;> simp only [hh, if_true, if_false, Bool.false_eq_true] <;>
      rw [hfac] <;> ring
  · intro hcrit
    simp only [computePriorityScore, if_neg hnotov, if_pos hcrit]

/-- The scenario source: distance 50 units, base loudness 1, Normal
importance, no hero flag, no override. -/
noncomputable def scenarioSource : UAcousticSourceComponent :=
  { priorityOverride := -1, baseLoudness := 1, importance := .normal,
    isHero := false, location := ⟨50, 0, 0⟩ }

/-- Witness for C5: the scenario source at distance 50 from the origin
listener scores exactly 2. -/
theorem priority_score_formula_witness :
    computePriorityScore scenarioSource ⟨0, 0, 0⟩ = 2 := by
  have h := (priority_score_formula scenarioSource ⟨0, 0, 0⟩
    (by norm_num [scenarioSource])).1 (by simp [scenarioSource])
  have hd : scenarioSource.location.dist ⟨0, 0, 0⟩ = 50 := by
    show Real.sqrt (((50 : ℝ) - 0)^2 + ((0 : ℝ) - 0)^2 + ((0 : ℝ) - 0)^2) = 50
    rw [show ((50 : ℝ) - 0)^2 + ((0 : ℝ) - 0)^2 + ((0 : ℝ) - 0)^2 = 50^2 by norm_num]
    exact Real.sqrt_sq (by norm_num)
  rw [h, hd, show max (50 : ℝ) 1 = 50 from max_eq_left (by norm_num)]
  norm_num [scenarioSource, importanceMultiplier]

/-- Embedding of the golden-ratio angle increment of
GenerateHemisphereRays: PI * 2 * (1 + sqrt 5) / 2. -/
noncomputable def angleIncrement : ℝ := Real.pi * 2 * ((1 + Real.sqrt 5) / 2)

/-- Embedding of UAcousticEngineSubsystem::GenerateHemisphereRays.  The
FQuat::FindBetweenNormals rotation is host-engine math (an external
collaborator), so it enters as the rotate parameter; the theorem below
constrains it exactly as FindBetweenNormals guarantees: it preserves
dot products and carries FVector::UpVector to the target normal. -/
noncomputable def generateHemisphereRays (rotate : FVector → FVector) (numRays : ℕ) :
    List FVector :=
  (List.range numRays).map (fun i : ℕ =>
    let t : ℝ := (i : ℝ) / (numRays : ℝ)
    let inclination := Real.arccos (1 - t)
    let azimuth := angleIncrement * (i : ℝ)
    rotate ⟨Real.sin inclination * Real.cos azimuth,
            Real.sin inclination * Real.sin azimuth,
            Real.cos inclination⟩)

/-- Helper: the pre-rotation spherical direction is unit length, and
its component along UpVector is the cosine of the inclination. -/
theorem baseDir_dot (ι φ : ℝ) :
    (⟨Real.sin ι * Real.cos φ, Real.sin ι * Real.sin φ, Real.cos ι⟩ : FVector).dot
      ⟨Real.sin ι * Real.cos φ, Real.sin ι * Real.sin φ, Real.cos ι⟩ = 1 ∧
    (⟨Real.sin ι * Real.cos φ, Real.sin ι * Real.sin φ, Real.cos ι⟩ : FVector).dot
      upVector = Real.cos ι := by
  constructor
  · show Real.sin ι * Real.cos φ * (Real.sin ι * Real.cos φ) +
      Real.sin ι * Real.sin φ * (Real.sin ι * Real.sin φ) +
      Real.cos ι * Real.cos ι = 1
    have h1 : Real.sin φ ^ 2 + Real.cos φ ^ 2 = 1 := Real.sin_sq_add_cos_sq φ
    have h2 : Real.sin ι ^ 2 + Real.cos ι ^ 2 = 1 := Real.sin_sq_add_cos_sq ι
    nlinarith [h1, h2]
  · show Real.sin ι * Real.cos φ * 0 + Real.sin ι * Real.sin φ * 0 +
      Real.cos ι * 1 = Real.cos ι
    ring

/-- C10: for any dot-product-preserving rotation carrying UpVector to
the normal and any ray count N at least 1, the hemisphere generator
returns exactly N directions, each of unit length and each with a
strictly positive dot product with the normal. -/
theorem hemisphere_rays_spec (rotate : FVector → FVector) (normal : FVector) (numRays : ℕ)
    (hN : 1 ≤ numRays)
    (hrot : ∀ a b : FVector, (rotate a).dot (rotate b) = a.dot b)
    (hup : rotate upVector = normal) :
    (generateHemisphereRays rotate numRays).length = numRays ∧
    ∀ d ∈ generateHemisphereRays rotate numRays,
      d.dot d = 1 ∧ d.size = 1 ∧ 0 < d.dot normal := by
  constructor
  · simp [generateHemisphereRays]
  · intro d hd
    simp only [generateHemisphereRays, List.mem_map, List.mem_range] at hd
    obtain ⟨i, hi, rfl⟩ := hd
    have hNpos : (0 : ℝ) < (numRays : ℝ) := by
      exact_mod_cast lt_of_lt_of_le zero_lt_one hN
    have ht0 : 0 ≤ (i : ℝ) / (numRays : ℝ) := by positivity
    have ht1 : (i : ℝ) / (numRays : ℝ) < 1 := by
      rw [div_lt_one hNpos]
      exact_mod_cast hi
    have hcos : Real.cos (Real.arccos (1 - (i : ℝ) / (numRays : ℝ))) =
        1 - (i : ℝ) / (numRays : ℝ) :=
      Real.cos_arccos (by linarith) (by linarith)
    have hbase := baseDir_dot (Real.arccos (1 - (i : ℝ) / (numRays : ℝ)))
      (angleIncrement * (i : ℝ))
    refine ⟨?_, ?_, ?_⟩
    · rw [hrot]
      exact hbase.1
    · show Real.sqrt _ = 1
      rw [hrot, hbase.1]
      exact Real.sqrt_one
    · rw [← hup, hrot, hbase.2, hcos]
      linarith

/-- Witness for C10: the identity rotation (FindBetweenNormals of Up
with itself) and a single ray around UpVector. -/
theorem hemisphere_rays_spec_witness :
    (generateHemisphereRays id 1).length = 1 ∧
    ∀ d ∈ generateHemisphereRays id 1, d.dot d = 1 ∧ d.size = 1 ∧ 0 < d.dot upVector :=
  hemisphere_rays_spec id upVector 1 (le_refl 1) (fun _ _ => rfl) rfl

/-! Master limiter (AcousticSubmixEffects.cpp,
    FAcousticMasterEffect::Init lines 420-426 and OnProcessAudio lines
    434-500). -/

/-- Embedding of the per-block derived quantities of OnProcessAudio:
the linear target gain 10^(OutputGainDb/20), the linear limiter
threshold 10^(LimiterThresholdDb/20), and the attack, release and
gain-smoothing one-pole coefficients exp(-1/(SampleRate*0.001)),
exp(-1/(SampleRate*0.1)) and exp(-1/(SampleRate*0.01)).  They enter the
model as rational parameters because powers of ten and exp are
transcendental; for every positive sample rate the three coefficients
lie strictly between 0 and 1 and the gains are positive. -/
structure LimiterCoeffs where
  targetGain : ℚ
  limiterThreshold : ℚ
  attackCoeff : ℚ
  releaseCoeff : ℚ
  gainSmoothCoeff : ℚ
deriving DecidableEq, Repr

/-- Embedding of the mutable state of FAcousticMasterEffect:
LimiterEnvelope, LimiterGain and SmoothedOutputGain. -/
structure LimiterState where
  limiterEnvelope : ℚ
  limiterGain : ℚ
  smoothedOutputGain : ℚ
deriving DecidableEq, Repr

/-- Embedding of FAcousticMasterEffect::Init: envelope 0, both gains 1. -/
def limiterInitState : LimiterState :=
  { limiterEnvelope := 0, limiterGain := 1, smoothedOutputGain := 1 }

/-- Embedding of the per-sample gain smoothing
(SmoothedOutputGain update, line 467). -/
def smoothedGain (c : LimiterCoeffs) (st : LimiterState) : ℚ :=
  c.gainSmoothCoeff * st.smoothedOutputGain + (1 - c.gainSmoothCoeff) * c.targetGain

/-- Embedding of the per-frame peak scan (lines 470-474): the largest
absolute value of the gain-scaled channels of one frame. -/
def framePeak (smoothed : ℚ) (frame : List ℚ) : ℚ :=
  frame.foldl (fun m x => max m |x * smoothed|) 0

/-- Embedding of the envelope follower (lines 476-483): attack
coefficient while the peak rises above the envelope, release otherwise. -/
def limiterEnvelopeNext (c : LimiterCoeffs) (st : LimiterState) (peak : ℚ) : ℚ :=
  if st.limiterEnvelope < peak then
    c.attackCoeff * st.limiterEnvelope + (1 - c.attackCoeff) * peak
  else
    c.releaseCoeff * st.limiterEnvelope + (1 - c.releaseCoeff) * peak

/-- Embedding of the gain-reduction computation (lines 485-492):
threshold over envelope when the envelope exceeds the threshold, else
unity. -/
def limiterGainFor (threshold envelope : ℚ) : ℚ :=
  if threshold < envelope then threshold / envelope else 1

/-- Embedding of the body of the sample loop of OnProcessAudio for one
frame: smoothing, peak, envelope, gain reduction, output scaling. -/
def limiterFrame (c : LimiterCoeffs) (st : LimiterState) (frame : List ℚ) :
    LimiterState × List ℚ :=
  let smoothed := smoothedGain c st
  let maxAbs := framePeak smoothed frame
  let envelope := limiterEnvelopeNext c st maxAbs
  let limiterGain := limiterGainFor c.limiterThreshold envelope
  let finalGain := smoothed * limiterGain
  ({ limiterEnvelope := envelope, limiterGain := limiterGain, smoothedOutputGain := smoothed },
    frame.map (fun x => x * finalGain))

/-- Embedding of the frame loop of OnProcessAudio. -/
def limiterGo (c : LimiterCoeffs) : LimiterState → List (List ℚ) →
    LimiterState × List (List ℚ)
  | st, [] => (st, [])
  | st, f :: rest =>
    let r := limiterFrame c st f
    let r2 := limiterGo c r.1 rest
    (r2.1, r.2 :: r2.2)

/-- Embedding of FAcousticMasterEffect::OnProcessAudio: pass-through
copy when disabled, otherwise the per-frame limiter loop over the
block. -/
def onProcessAudioMaster (enabled : Bool) (c : LimiterCoeffs) (st : LimiterState)
    (frames : List (List ℚ)) : LimiterState × List (List ℚ) :=
  if enabled = false then (st, frames) else limiterGo c st frames

/-- C7 counterexample: with the limiter enabled, unit target gain and
unit linear threshold, valid one-pole coefficients (attack 49/50,
release 9/10, smoothing 1/2 — each strictly between 0 and 1, as
exp(-1/(SampleRate*tau)) always is), the very first input sample of
amplitude 2 passes through at amplitude 2 > threshold 1: the envelope
follower has only reached 1/25, so no gain reduction is applied yet —
the claimed hard bound fails on attack transients. -/
theorem limiter_threshold_counterexample :
    (0 < (49 : ℚ)/50 ∧ (49 : ℚ)/50 < 1) ∧
    (0 < (9 : ℚ)/10 ∧ (9 : ℚ)/10 < 1) ∧
    (0 < (1 : ℚ)/2 ∧ (1 : ℚ)/2 < 1) ∧
    (onProcessAudioMaster true ⟨1, 1, 49/50, 9/10, 1/2⟩ limiterInitState [[2]]).2 = [[2]] ∧
    ¬ (|(2 : ℚ)| ≤ 1) := by
  refine ⟨⟨by norm_num, by norm_num⟩, ⟨by norm_num, by norm_num⟩,
    ⟨by norm_num, by norm_num⟩, ?_, by norm_num⟩
  norm_num [onProcessAudioMaster, limiterGo, limiterFrame, limiterInitState,
    smoothedGain, framePeak, limiterEnvelopeNext, limiterGainFor, max_def, abs]

/-- Helper: the running foldl peak dominates its seed and every
gain-scaled sample of the frame. -/
theorem foldl_max_le (s : ℚ) (l : List ℚ) : ∀ acc : ℚ,
    acc ≤ l.foldl (fun m x => max m |x * s|) acc ∧
    ∀ x ∈ l, |x * s| ≤ l.foldl (fun m x => max m |x * s|) acc := by
  induction l with
  | nil => intro acc; exact ⟨le_refl _, by simp⟩
  | cons a l ih =>
    intro acc
    constructor
    · exact le_trans (le_max_left acc _) (ih (max acc |a * s|)).1
    · intro x hx
      rcases List.mem_cons.mp hx with rfl | hx2
      · exact le_trans (le_max_right acc |x * s|) (ih (max acc |x * s|)).1
      · exact (ih (max acc |a * s|)).2 x hx2

/-- C7 amended: the limiter multiplies by min(1, threshold/envelope),
so whenever the updated envelope has reached the current frame peak
(i.e. outside attack transients) every output sample of that frame
stays within the threshold; during attack, while the envelope is still
below the peak, the output can exceed the threshold (see the
counterexample). -/
theorem limiter_output_bound (c : LimiterCoeffs) (st : LimiterState) (frame : List ℚ)
    (hT : 0 ≤ c.limiterThreshold)
    (henv : framePeak (smoothedGain c st) frame ≤
      (limiterFrame c st frame).1.limiterEnvelope) :
    ∀ y ∈ (limiterFrame c st frame).2, |y| ≤ c.limiterThreshold := by
  intro y hy
  have hy2 : ∃ x ∈ frame, x * (smoothedGain c st *
      limiterGainFor c.limiterThreshold
        (limiterEnvelopeNext c st (framePeak (smoothedGain c st) frame))) = y := by
    simpa [limiterFrame] using hy
  obtain ⟨x, hx, rfl⟩ := hy2
  have henv2 : framePeak (smoothedGain c st) frame ≤
      limiterEnvelopeNext c st (framePeak (smoothedGain c st) frame) := henv
  have hxP : |x * smoothedGain c st| ≤ framePeak (smoothedGain c st) frame :=
    (foldl_max_le (smoothedGain c st) frame 0).2 x hx
  by_cases hgt : c.limiterThreshold <
      limiterEnvelopeNext c st (framePeak (smoothedGain c st) frame)
  · have hE0 : 0 < limiterEnvelopeNext c st (framePeak (smoothedGain c st) frame) :=
      lt_of_le_of_lt hT hgt
    rw [show limiterGainFor c.limiterThreshold
        (limiterEnvelopeNext c st (framePeak (smoothedGain c st) frame)) =
        c.limiterThreshold / limiterEnvelopeNext c st (framePeak (smoothedGain c st) frame)
      from if_pos hgt]
    have habs : |x * (smoothedGain c st * (c.limiterThreshold /
        limiterEnvelopeNext c st (framePeak (smoothedGain c st) frame)))| =
        |x * smoothedGain c st| * (c.limiterThreshold /
          limiterEnvelopeNext c st (framePeak (smoothedGain c st) frame)) := by
      rw [show x * (smoothedGain c st * (c.limiterThreshold /
          limiterEnvelopeNext c st (framePeak (smoothedGain c st) frame))) =
          (x * smoothedGain c st) * (c.limiterThreshold /
            limiterEnvelopeNext c st (framePeak (smoothedGain c st) frame)) from by ring,
        abs_mul, abs_of_nonneg (div_nonneg hT hE0.le)]
    rw [habs]
    have hstep : |x * smoothedGain c st| * (c.limiterThreshold /
        limiterEnvelopeNext c st (framePeak (smoothedGain c st) frame)) ≤
        limiterEnvelopeNext c st (framePeak (smoothedGain c st) frame) *
          (c.limiterThreshold /
            limiterEnvelopeNext c st (framePeak (smoothedGain c st) frame)) :=
      mul_le_mul_of_nonneg_right (le_trans hxP henv2) (div_nonneg hT hE0.le)
    refine le_trans hstep (le_of_eq ?_)
    field_simp
  · rw [show limiterGainFor c.limiterThreshold
        (limiterEnvelopeNext c st (framePeak (smoothedGain c st) frame)) = 1
      from if_neg hgt, mul_one]
    exact le_trans hxP (le_trans henv2 (not_lt.mp hgt))

/-- Witness for C7 amended: a settled envelope (1) above the frame
peak (1/2) passes the half-amplitude sample through within the unit
threshold. -/
theorem limiter_output_bound_witness :
    (limiterFrame ⟨1, 1, 49/50, 9/10, 1/2⟩ ⟨1, 1, 1⟩ [1/2]).2 = [(1 : ℚ)/2] ∧
    |(1 : ℚ)/2| ≤ (1 : ℚ) := by
  have heval : (limiterFrame ⟨1, 1, 49/50, 9/10, 1/2⟩ ⟨1, 1, 1⟩ [1/2]).2 = [(1 : ℚ)/2] := by
    norm_num [limiterFrame, smoothedGain, framePeak, limiterEnvelopeNext, limiterGainFor,
      max_def, abs]
  have henv : framePeak (smoothedGain ⟨1, 1, 49/50, 9/10, 1/2⟩ ⟨1, 1, 1⟩) [1/2] ≤
      (limiterFrame ⟨1, 1, 49/50, 9/10, 1/2⟩ ⟨1, 1, 1⟩ [1/2]).1.limiterEnvelope := by
    show framePeak (smoothedGain ⟨1, 1, 49/50, 9/10, 1/2⟩ ⟨1, 1, 1⟩) [1/2] ≤
      limiterEnvelopeNext ⟨1, 1, 49/50, 9/10, 1/2⟩ ⟨1, 1, 1⟩
        (framePeak (smoothedGain ⟨1, 1, 49/50, 9/10, 1/2⟩ ⟨1, 1, 1⟩) [1/2])
    norm_num [framePeak, smoothedGain, limiterEnvelopeNext, max_def, abs]
  refine ⟨heval, limiter_output_bound ⟨1, 1, 49/50, 9/10, 1/2⟩ ⟨1, 1, 1⟩ [1/2]
    (by norm_num) henv ((1 : ℚ)/2) ?_⟩
  rw [heval]
  simp
